import Mathlib

/-!
Verification model of the qbench benchmark engine.

Each definition below is a shallow embedding of the corresponding Rust
item of the repository (src/util.rs, src/bench.rs, src/lib.rs,
src/args.rs).  Machine integers are modelled as `Nat`, wall-clock
durations as `ℚ` (the code stores `std::time::Duration`; the exact
values measured are nondeterministic, so theorems quantify over a
duration oracle), and the database driver as an oracle giving the
outcome of the k-th statement execution.
-/

/-! ## Statement splitter (src/util.rs, extract_multiline_queries) -/

/-- Model of Rust `str::split_inclusive(';')` on the character list of a
string: pieces end just after each `;`, the delimiter is kept, a final
fragment without a `;` is kept, and the empty string yields no pieces. -/
def splitInclusiveSemi : List Char → List (List Char)
  | [] => []
  | c :: cs =>
    if c = ';' then [c] :: splitInclusiveSemi cs
    else
      match splitInclusiveSemi cs with
      | [] => [[c]]
      | p :: ps => (c :: p) :: ps

/-- The characters Rust `char::is_whitespace` accepts (the Unicode
White_Space set). -/
def rustWhitespaceChars : List Char :=
  [' ', '\t', '\n', '\r', Char.ofNat 0x0B, Char.ofNat 0x0C,
   Char.ofNat 0x85, Char.ofNat 0xA0, Char.ofNat 0x1680,
   Char.ofNat 0x2000, Char.ofNat 0x2001, Char.ofNat 0x2002,
   Char.ofNat 0x2003, Char.ofNat 0x2004, Char.ofNat 0x2005,
   Char.ofNat 0x2006, Char.ofNat 0x2007, Char.ofNat 0x2008,
   Char.ofNat 0x2009, Char.ofNat 0x200A, Char.ofNat 0x2028,
   Char.ofNat 0x2029, Char.ofNat 0x202F, Char.ofNat 0x205F,
   Char.ofNat 0x3000]

/-- Model of Rust `char::is_whitespace`. -/
def isRustWhitespace (c : Char) : Bool :=
  rustWhitespaceChars.contains c

/-- Model of Rust `str::trim` (drop leading and trailing whitespace). -/
def rustTrim (l : List Char) : List Char :=
  ((l.dropWhile isRustWhitespace).reverse.dropWhile isRustWhitespace).reverse

/-- Model of `extract_multiline_queries` (src/util.rs lines 29-34):
`query_str.split_inclusive(';').map(|s| s.trim()).collect()`. -/
def extract_multiline_queries (s : String) : List String :=
  (splitInclusiveSemi s.data).map (fun p => (rustTrim p).asString)

/-- Spec-side split ("splitting on the `;` character"): Rust
`str::split(';')`, which drops the delimiter and yields one piece more
than the number of delimiters. -/
def splitOnSemi : List Char → List (List Char)
  | [] => [[]]
  | c :: cs =>
    if c = ';' then [] :: splitOnSemi cs
    else
      match splitOnSemi cs with
      | [] => [[c]]
      | p :: ps => (c :: p) :: ps

/-- Spec-side reattachment ("with the delimiter retained in each
piece"): put the `;` back on every piece except the last, and drop a
trailing empty piece (the fragment after a terminal `;`). -/
def reattachSemi : List (List Char) → List (List Char)
  | [] => []
  | [p] => if p.isEmpty then [] else [p]
  | p :: q :: ps => (p ++ [';']) :: reattachSemi (q :: ps)

/-! ## Duration formatter (src/util.rs, format_duration_pretty) -/

/-- The rendering block of `format_duration_pretty` (src/util.rs lines
95-119): append each unit when its gate holds, then trim the trailing
space. -/
def render_parts (years days hrs mins secs ms : Nat) : String :=
  let res := ""
  let res := if years > 0 then res ++ toString years ++ ("y ") else res
  let res := if days > 0 ∨ (years > 0 ∧ hrs > 0) then res ++ toString days ++ ("d ") else res
  let res := if hrs > 0 ∨ (days > 0 ∧ mins > 0) then res ++ toString hrs ++ ("h ") else res
  let res := if mins > 0 ∨ (hrs > 0 ∧ secs > 0) then res ++ toString mins ++ ("m ") else res
  let res := if secs > 0 ∨ (mins > 0 ∧ ms > 0) then res ++ toString secs ++ ("s ") else res
  let res := if ms > 0 ∨ res.isEmpty then res ++ toString ms ++ ("ms ") else res
  (rustTrim res.data).asString

/-- Model of `format_duration_pretty` (src/util.rs lines 79-120).  The
input is `duration.as_millis()`.  Note the source assigns
`days = millis` before the division by 365, so `days` is the full day
count, not reduced modulo 365. -/
def format_duration_pretty (millis0 : Nat) : String :=
  let ms := millis0 % 1000
  let millis1 := millis0 / 1000
  let secs := millis1 % 60
  let millis2 := millis1 / 60
  let mins := millis2 % 60
  let millis3 := millis2 / 60
  let hrs := millis3 % 24
  let millis4 := millis3 / 24
  let days := millis4
  let millis5 := millis4 / 365
  let years := millis5
  render_parts years days hrs mins secs ms

/-- Modelled from the claim text for C8: a strict successive integer
division/remainder decomposition with the constants 1000, 60, 60, 24,
365, i.e. the day component is also reduced modulo 365. -/
def format_duration_spec (t : Nat) : String :=
  render_parts (t / 1000 / 60 / 60 / 24 / 365) (t / 1000 / 60 / 60 / 24 % 365)
    (t / 1000 / 60 / 60 % 24) (t / 1000 / 60 % 60) (t / 1000 % 60) (t % 1000)

/-! ## Engine data model (src/lib.rs, src/args.rs, src/bench.rs)

The database driver at the boundary of the engine is an oracle: the
outcome of the k-th statement execution performed on the transaction
(counting from 0) is `stmt k`, where `none` is success and `some e` is
a driver error with message `e`.  Elapsed wall-clock times are likewise
oracle values. -/

/-- Observable events of one revision execution, in order.  `dropTx`
records the transaction value being dropped without an explicit
`commit`/`rollback` call; the sqlx `Transaction` guard rolls the
transaction back when dropped, which is how every early-return `?` path
in `run_revision_bench` ends the transaction. -/
inductive Event where
  | begin
  | exec (stmt : String)
  | rollback
  | commit
  | dropTx
  | divide (divisor : Nat)
deriving DecidableEq

/-- Nondeterministic inputs of one revision execution: the outcome of
`pool.begin()`, of each statement execution, of the final `rollback()`,
and the wall-clock durations measured. -/
structure Env where
  beginRes : Option String
  stmt : Nat → Option String
  rollbackRes : Option String
  iterDur : Nat → ℚ
  preDur : ℚ
  postDur : ℚ

/-- Model of `QueryRevision` (src/lib.rs lines 64-70). -/
structure QueryRevision where
  name : String
  query : String
  pre_script : Option String
  post_script : Option String
deriving DecidableEq

/-- Model of the success value `run_revision_bench` builds (the
`QueryRevisionResult` struct as used in src/bench.rs lines 287-346;
all fields start from `Default::default()` and are overwritten on the
paths that reach them). -/
structure QueryRevisionResult where
  revision_name : String
  durations : List ℚ
  avg_query_duration : ℚ
  pre_script_duration : ℚ
  post_script_duration : ℚ
deriving DecidableEq

/-- The errors `run_revision_bench` can propagate to its caller with
`?`: the phase tag records the `anyhow` context message built from the
revision name (src/bench.rs lines 303-308, 323-329, 353-358), plus the
fallible `begin` (line 297) and `rollback` (line 362) calls. -/
inductive RevError where
  | beginTx (e : String)
  | preScript (revName : String) (e : String)
  | queryPhase (revName : String) (e : String)
  | postScript (revName : String) (e : String)
  | rollbackFail (e : String)
deriving DecidableEq

/-- Sequential execution of a list of statements against the
transaction (the loop of `execute_script`, src/bench.rs lines 412-418):
each statement consumes one oracle outcome; the first error stops the
loop and is returned. -/
def exec_stmts (o : Nat → Option String) : Nat → List String → Except String Unit × List Event × Nat
  | k, [] => (.ok (), [], k)
  | k, s :: rest =>
    match o k with
    | some e => (.error e, [Event.exec s], k + 1)
    | none =>
      match exec_stmts o (k + 1) rest with
      | (r, evs, kf) => (r, Event.exec s :: evs, kf)

/-- Model of `QBench::execute_script` (src/bench.rs lines 403-426):
split the script with `extract_multiline_queries` and execute every
piece sequentially; on success return the elapsed wall-clock time
(an oracle value), on the first error return that error (the `?` fires
before the duration is taken). -/
def execute_script (script : String) (o : Nat → Option String) (k : Nat) (elapsed : ℚ) :
    Except String ℚ × List Event × Nat :=
  match exec_stmts o k (extract_multiline_queries script) with
  | (.error e, evs, kf) => (.error e, evs, kf)
  | (.ok _, evs, kf) => (.ok elapsed, evs, kf)

/-- The optional-script step of `run_revision_bench`: when the script is
absent the duration field keeps its `Default::default()` value `0` and
nothing is executed (src/bench.rs lines 300-309, 349-359). -/
def script_phase (script : Option String) (o : Nat → Option String) (k : Nat) (elapsed : ℚ) :
    Except String ℚ × List Event × Nat :=
  match script with
  | none => (.ok 0, [], k)
  | some s => execute_script s o k elapsed

/-- The timed iteration loop of `run_revision_bench` (src/bench.rs
lines 315-335): run the revision query once per remaining iteration,
recording the elapsed time of each; the first error stops the loop and
is returned by `?`, discarding the durations already collected. -/
def run_iters (o : Nat → Option String) (d : Nat → ℚ) (q : String) :
    Nat → Nat → Except String (List ℚ) × List Event × Nat
  | k, 0 => (.ok [], [], k)
  | k, n + 1 =>
    match o k with
    | some e => (.error e, [Event.exec q], k + 1)
    | none =>
      match run_iters o d q (k + 1) n with
      | (.error e, evs, kf) => (.error e, Event.exec q :: evs, kf)
      | (.ok ds, evs, kf) => (.ok (d k :: ds), Event.exec q :: evs, kf)

/-- Model of `QBench::run_revision_bench` (src/bench.rs lines 283-365).
Control flow of the source: begin a transaction (`?` on failure), run
the optional pre-script (`?` on failure), run the timed iteration loop
(`?` on failure), compute `avg_query_duration` by dividing the summed
durations by `durations.len()` with no emptiness guard
(`Duration::div_f64`, modelled as exact division in `ℚ`), run the
optional post-script (`?` on failure), then roll the transaction back
and return the success struct.  Early `?` returns drop the transaction
(`Event.dropTx`); `commit` is never called. -/
def run_revision_bench (env : Env) (rev : QueryRevision) (iterations : Nat) :
    Except RevError QueryRevisionResult × List Event :=
  match env.beginRes with
  | some e => (.error (.beginTx e), [])
  | none =>
    match script_phase rev.pre_script env.stmt 0 env.preDur with
    | (.error e, preEvs, _) =>
        (.error (.preScript rev.name e), Event.begin :: (preEvs ++ [Event.dropTx]))
    | (.ok preD, preEvs, k1) =>
      match run_iters env.stmt env.iterDur rev.query k1 iterations with
      | (.error e, itEvs, _) =>
          (.error (.queryPhase rev.name e),
           Event.begin :: (preEvs ++ itEvs ++ [Event.dropTx]))
      | (.ok durs, itEvs, k2) =>
        match script_phase rev.post_script env.stmt k2 env.postDur with
        | (.error e, postEvs, _) =>
            (.error (.postScript rev.name e),
             Event.begin :: (preEvs ++ itEvs ++ [Event.divide durs.length] ++ postEvs ++ [Event.dropTx]))
        | (.ok postD, postEvs, _) =>
          match env.rollbackRes with
          | some e =>
              (.error (.rollbackFail e),
               Event.begin :: (preEvs ++ itEvs ++ [Event.divide durs.length] ++ postEvs ++ [Event.rollback]))
          | none =>
              (.ok { revision_name := rev.name,
                     durations := durs,
                     avg_query_duration := durs.sum / (durs.length : ℚ),
                     pre_script_duration := preD,
                     post_script_duration := postD },
               Event.begin :: (preEvs ++ itEvs ++ [Event.divide durs.length] ++ postEvs ++ [Event.rollback]))

/-! ## Orchestrator (src/bench.rs, run_query_bench / run_bench /
get_files_matching_pattern)

`FuturesUnordered` yields task results in completion order; the models
below receive the per-task results as a list whose order stands for
that (scheduler-chosen) completion order.  The claims settled here do
not depend on which permutation is taken. -/

/-- Model of `QueryBench` (src/lib.rs lines 57-61). -/
structure QueryBench where
  name : String
  revisions : List QueryRevision

/-- Model of `QueryBenches` (src/lib.rs lines 51-54). -/
structure QueryBenches where
  queries : List QueryBench

/-- Model of the `QueryBenchResult` value `run_query_bench` builds
(src/bench.rs lines 245-248: the benchmark name and one entry per
revision task that completed successfully). -/
structure QueryBenchResult where
  name : String
  results : List QueryRevisionResult
deriving DecidableEq

/-- The error `run_query_bench` returns: the first failed revision
task's error wrapped with the context message naming the benchmark
(src/bench.rs lines 236-240). -/
inductive QBError where
  | ctx (benchName : String) (e : RevError)
deriving DecidableEq

/-- Errors `run_bench` can return: the no-files-matched error of
`get_files_matching_pattern` (src/bench.rs lines 184-190), a file
parse error propagated by `?` (line 123), or a failed benchmark task
propagated by `?` (line 136). -/
inductive RunError where
  | noFilesFound (pattern : String) (dir : String)
  | parseFail (e : String)
  | benchFail (e : QBError)
deriving DecidableEq

/-- Model of the configuration arguments used by the engine
(src/args.rs; `pattern` is the glob filter, read in src/bench.rs line
176, and `iterations` the per-revision iteration count). -/
structure Args where
  url : String
  dir : String
  pattern : String
  max_connections : Nat
  iterations : Nat

/-- The collection loop of `run_query_bench` (src/bench.rs lines
233-242): push each successful revision outcome; on the first failed
task return its error with the benchmark-name context, abandoning the
outcomes of the remaining tasks. -/
def collect_rev_results (benchName : String) :
    List (Except RevError QueryRevisionResult) → Except QBError (List QueryRevisionResult)
  | [] => .ok []
  | .error e :: _ => .error (.ctx benchName e)
  | .ok r :: rest =>
    match collect_rev_results benchName rest with
    | .error e => .error e
    | .ok rs => .ok (r :: rs)

/-- One revision task per revision of the benchmark (src/bench.rs lines
218-227); `envs i` is the oracle seen by the i-th revision task, which
owns its own connection and transaction. -/
def rev_outcomes (envs : Nat → Env) (iterations : Nat) :
    Nat → List QueryRevision → List (Except RevError QueryRevisionResult)
  | _, [] => []
  | i, r :: rs =>
    (run_revision_bench (envs i) r iterations).1 :: rev_outcomes envs iterations (i + 1) rs

/-- Model of `QBench::run_query_bench` (src/bench.rs lines 213-249). -/
def run_query_bench (envs : Nat → Env) (iterations : Nat) (bench : QueryBench) :
    Except QBError QueryBenchResult :=
  match collect_rev_results bench.name (rev_outcomes envs iterations 0 bench.revisions) with
  | .error e => .error e
  | .ok results => .ok { name := bench.name, results := results }

/-- Model of `QBench::get_files_matching_pattern` (src/bench.rs lines
165-192).  `matched` is the list of files the glob walk produced
(`glob_with` filtered to regular files — a filesystem oracle); the
source returns an error naming the pattern and the directory when it is
empty. -/
def get_files_matching_pattern (args : Args) (matched : List String) :
    Except RunError (List String) :=
  if matched.isEmpty then .error (.noFilesFound args.pattern args.dir) else .ok matched

/-- The parse-collection loop of `run_bench` (src/bench.rs lines
121-124): append the queries of each parsed file; a parse error is
propagated by `?` immediately. -/
def collect_parses : List (Except String QueryBenches) → Except RunError (List QueryBench)
  | [] => .ok []
  | .error e :: _ => .error (.parseFail e)
  | .ok qb :: rest =>
    match collect_parses rest with
    | .error e => .error e
    | .ok qs => .ok (qb.queries ++ qs)

/-- The benchmark-collection loop of `run_bench` (src/bench.rs lines
134-137): `results.push(result?)` — the first failed benchmark task
aborts the whole run. -/
def collect_bench_results :
    List (Except QBError QueryBenchResult) → Except RunError (List QueryBenchResult)
  | [] => .ok []
  | .error e :: _ => .error (.benchFail e)
  | .ok r :: rest =>
    match collect_bench_results rest with
    | .error e => .error e
    | .ok rs => .ok (r :: rs)

/-- One benchmark task per parsed benchmark (src/bench.rs lines
127-131); `envFor b` gives the oracles of the revision tasks of the
b-th benchmark. -/
def bench_outcomes (envFor : Nat → Nat → Env) (iterations : Nat) :
    Nat → List QueryBench → List (Except QBError QueryBenchResult)
  | _, [] => []
  | b, q :: qs =>
    run_query_bench (envFor b) iterations q :: bench_outcomes envFor iterations (b + 1) qs

/-- Model of `QBench::run_bench` (src/bench.rs lines 106-140): glob for
definition files (error when none match), parse them, run every
benchmark, collect the results. -/
def run_bench (args : Args) (matched : List String)
    (parse : String → Except String QueryBenches) (envFor : Nat → Nat → Env) :
    Except RunError (List QueryBenchResult) :=
  match get_files_matching_pattern args matched with
  | .error e => .error e
  | .ok files =>
    match collect_parses (files.map parse) with
    | .error e => .error e
    | .ok query_benches =>
      collect_bench_results (bench_outcomes envFor args.iterations 0 query_benches)

/-! ## Concrete fixtures used by witnesses and counterexamples -/

/-- An oracle on which every database call succeeds and iteration k
takes k+1 time units. -/
def envAllOk : Env :=
  { beginRes := none, stmt := fun _ => none, rollbackRes := none,
    iterDur := fun k => (k : ℚ) + 1, preDur := 0, postDur := 0 }

/-- An oracle on which every statement execution fails with message
boom. -/
def envStmtFail : Env :=
  { beginRes := none, stmt := fun _ => some ("boom"), rollbackRes := none,
    iterDur := fun _ => 1, preDur := 0, postDur := 0 }

/-- An oracle on which the first statement succeeds and every later one
fails with message boom. -/
def envSecondFail : Env :=
  { beginRes := none, stmt := fun j => if j = 0 then none else some ("boom"),
    rollbackRes := none, iterDur := fun _ => 1, preDur := 0, postDur := 0 }

/-- A plain revision: a query and no scripts. -/
def revPlain : QueryRevision :=
  { name := "r", query := "Q", pre_script := none, post_script := none }

/-- A revision with a pre-script whose statement the driver rejects on
`envStmtFail`. -/
def revPre : QueryRevision :=
  { name := "r1", query := "Q", pre_script := some ("BAD;"), post_script := none }

/-- A revision with a post-script. -/
def revPost : QueryRevision :=
  { name := "r2", query := "Q", pre_script := none, post_script := some ("P;") }

/-- The failing revision of the C3 fixture. -/
def revBad : QueryRevision :=
  { name := "bad", query := "Q", pre_script := none, post_script := none }

/-- The sibling revision of the C3 fixture, which succeeds on its own
oracle. -/
def revSibling : QueryRevision :=
  { name := "ok", query := "Q", pre_script := none, post_script := none }

/-- A benchmark with one failing and one succeeding revision. -/
def benchTwo : QueryBench :=
  { name := "b", revisions := [revBad, revSibling] }

/-- Per-revision oracles of `benchTwo`: revision task 0 hits a driver
error on its first statement, revision task 1 sees only successes. -/
def envsTwo : Nat → Env :=
  fun i => if i = 0 then envStmtFail else envAllOk

/-- Arguments fixture. -/
def argsOne : Args :=
  { url := "postgres://u@h/db", dir := "./", pattern := "*.toml",
    max_connections := 10, iterations := 1 }

/-- A parse oracle mapping every file to the single benchmark
`benchTwo`. -/
def parseTwo : String → Except String QueryBenches :=
  fun _ => .ok { queries := [benchTwo] }

/-! ## Helper lemmas -/

/-- Every event produced by the statement loop is a statement
execution. -/
theorem exec_stmts_events (o : Nat → Option String) :
    ∀ (l : List String) (k : Nat), ∀ ev ∈ (exec_stmts o k l).2.1, ∃ s, ev = Event.exec s := by
  intro l
  induction l with
  | nil => intro k ev hev; simp [exec_stmts] at hev
  | cons s rest ih =>
    intro k ev hev
    unfold exec_stmts at hev
    cases ho : o k with
    | some e =>
      rw [ho] at hev
      simp at hev
      exact ⟨s, hev⟩
    | none =>
      rw [ho] at hev
      rcases hrec : exec_stmts o (k + 1) rest with ⟨r, evs, kf⟩
      rw [hrec] at hev
      simp at hev
      rcases hev with h | h
      · exact ⟨s, h⟩
      · exact ih (k + 1) ev (by rw [hrec]; exact h)

/-- Every event produced by a script phase is a statement execution. -/
theorem script_phase_events (s : Option String) (o : Nat → Option String) (k : Nat) (d : ℚ) :
    ∀ ev ∈ (script_phase s o k d).2.1, ∃ q, ev = Event.exec q := by
  intro ev hev
  cases s with
  | none => simp [script_phase] at hev
  | some sc =>
    simp only [script_phase, execute_script] at hev
    rcases hrec : exec_stmts o k (extract_multiline_queries sc) with ⟨r, evs, kf⟩
    rw [hrec] at hev
    cases r with
    | error e =>
      simp at hev
      exact exec_stmts_events o (extract_multiline_queries sc) k ev (by rw [hrec]; exact hev)
    | ok u =>
      simp at hev
      exact exec_stmts_events o (extract_multiline_queries sc) k ev (by rw [hrec]; exact hev)

/-- Every event produced by the iteration loop is a statement
execution. -/
theorem run_iters_events (o : Nat → Option String) (d : Nat → ℚ) (q : String) :
    ∀ (n k : Nat), ∀ ev ∈ (run_iters o d q k n).2.1, ∃ s, ev = Event.exec s := by
  intro n
  induction n with
  | zero => intro k ev hev; simp [run_iters] at hev
  | succ m ih =>
    intro k ev hev
    unfold run_iters at hev
    cases ho : o k with
    | some e =>
      rw [ho] at hev
      simp at hev
      exact ⟨q, hev⟩
    | none =>
      rw [ho] at hev
      rcases hrec : run_iters o d q (k + 1) m with ⟨r, evs, kf⟩
      rw [hrec] at hev
      cases r with
      | error e =>
        simp at hev
        rcases hev with h | h
        · exact ⟨q, h⟩
        · exact ih (k + 1) ev (by rw [hrec]; exact h)
      | ok ds =>
        simp at hev
        rcases hev with h | h
        · exact ⟨q, h⟩
        · exact ih (k + 1) ev (by rw [hrec]; exact h)

/-- `Event.commit` never occurs in a list of statement executions. -/
theorem commit_not_mem_of_execs {l : List Event}
    (h : ∀ ev ∈ l, ∃ s, ev = Event.exec s) : Event.commit ∉ l := by
  intro hmem
  rcases h _ hmem with ⟨s, hs⟩
  exact Event.noConfusion hs

/-- On an oracle without driver errors the statement loop executes every
statement in order. -/
theorem exec_stmts_all_ok (o : Nat → Option String) (hok : ∀ j, o j = none) :
    ∀ (l : List String) (k : Nat),
      exec_stmts o k l = (.ok (), l.map Event.exec, k + l.length) := by
  intro l
  induction l with
  | nil => intro k; simp [exec_stmts]
  | cons s rest ih =>
    intro k
    unfold exec_stmts
    rw [hok k, ih (k + 1)]
    simp [Nat.add_assoc, Nat.add_comm, Nat.add_left_comm]

/-- When the first `n` statement executions after counter `k` succeed,
the iteration loop returns the `n` measured durations in order and
advances the counter by `n`. -/
theorem run_iters_ok (o : Nat → Option String) (d : Nat → ℚ) (q : String) :
    ∀ (n k : Nat), (∀ j, j < n → o (k + j) = none) →
      run_iters o d q k n =
        (.ok ((List.range n).map fun j => d (k + j)),
         List.replicate n (Event.exec q), k + n) := by
  intro n
  induction n with
  | zero => intro k h; simp [run_iters]
  | succ m ih =>
    intro k h
    have h0 : o k = none := by simpa using h 0 (Nat.succ_pos m)
    have hrest : ∀ j, j < m → o (k + 1 + j) = none := by
      intro j hj
      have := h (j + 1) (Nat.succ_lt_succ hj)
      simpa [Nat.add_assoc, Nat.add_comm, Nat.add_left_comm] using this
    unfold run_iters
    rw [h0, ih (k + 1) hrest]
    simp only [List.range_succ_eq_map, List.map_cons, List.map_map, List.replicate_succ,
      Prod.mk.injEq]
    refine ⟨?_, trivial, by omega⟩
    have hfun : (fun j => d (k + j)) ∘ Nat.succ = fun j => d (k + 1 + j) := by
      funext j
      simp [Function.comp, Nat.add_assoc, Nat.add_comm, Nat.add_left_comm]
    rw [hfun]
    simp

/-- When the first `j` statement executions after counter `k` succeed
and execution `j` fails, the iteration loop stops right there: exactly
`j + 1` query submissions happen and the error is returned. -/
theorem run_iters_fail (o : Nat → Option String) (d : Nat → ℚ) (q : String) :
    ∀ (j n k : Nat) (e : String), j < n → (∀ i, i < j → o (k + i) = none) →
      o (k + j) = some e →
      run_iters o d q k n =
        (.error e, List.replicate (j + 1) (Event.exec q), k + j + 1) := by
  intro j
  induction j with
  | zero =>
    intro n k e hn hok hf
    cases n with
    | zero => omega
    | succ m =>
      unfold run_iters
      rw [show o k = some e by simpa using hf]
      simp [List.replicate]
  | succ jj ih =>
    intro n k e hn hok hf
    cases n with
    | zero => omega
    | succ m =>
      have h0 : o k = none := by simpa using hok 0 (Nat.succ_pos jj)
      have hok1 : ∀ i, i < jj → o (k + 1 + i) = none := by
        intro i hi
        have := hok (i + 1) (Nat.succ_lt_succ hi)
        simpa [Nat.add_assoc, Nat.add_comm, Nat.add_left_comm] using this
      have hf1 : o (k + 1 + jj) = some e := by
        have : k + 1 + jj = k + (jj + 1) := by omega
        rw [this]; exact hf
      unfold run_iters
      rw [h0, ih m (k + 1) e (by omega) hok1 hf1]
      simp only [List.replicate_succ, Prod.mk.injEq]
      exact ⟨trivial, trivial, by omega⟩

/-- The delimiter-dropping split always yields at least one piece. -/
theorem splitOnSemi_ne_nil : ∀ l : List Char, splitOnSemi l ≠ [] := by
  intro l
  cases l with
  | nil => simp [splitOnSemi]
  | cons c cs =>
    unfold splitOnSemi
    by_cases hc : c = ';'
    · simp [hc]
    · simp only [hc, if_false]
      rcases h : splitOnSemi cs with _ | ⟨p, ps⟩ <;> simp

/-- The delimiter-keeping split of the source equals the spec-side
description: split on `;`, re-attach the delimiter to every piece but
the last, drop a trailing empty fragment. -/
theorem splitInclusive_eq_reattach :
    ∀ l : List Char, splitInclusiveSemi l = reattachSemi (splitOnSemi l) := by
  intro l
  induction l with
  | nil => rfl
  | cons c cs ih =>
    by_cases hc : c = ';'
    · subst hc
      rcases h : splitOnSemi cs with _ | ⟨p, ps⟩
      · exact absurd h (splitOnSemi_ne_nil cs)
      · simp [splitInclusiveSemi, splitOnSemi, reattachSemi, h, ih]
    · rcases h : splitOnSemi cs with _ | ⟨p, ps⟩
      · exact absurd h (splitOnSemi_ne_nil cs)
      · rcases ps with _ | ⟨q2, qs⟩
        · by_cases hp : p = []
          · subst hp
            simp [splitInclusiveSemi, splitOnSemi, reattachSemi, hc, h, ih]
          · simp [splitInclusiveSemi, splitOnSemi, reattachSemi, hc, h, ih, hp]
        · simp [splitInclusiveSemi, splitOnSemi, reattachSemi, hc, h, ih]

/-! ## Claim theorems -/

/-- C1: for every revision execution whose transaction was begun, the
transaction is ended by a rollback on every exit path — explicitly
(`Event.rollback`, the success and rollback-error paths) or by the
drop of the sqlx transaction guard (`Event.dropTx`, the pre-script,
query and post-script failure paths) — and `commit` is never invoked. -/
theorem c1_rollback_only (env : Env) (rev : QueryRevision) (n : Nat)
    (hb : env.beginRes = none) :
    Event.commit ∉ (run_revision_bench env rev n).2 ∧
    (Event.rollback ∈ (run_revision_bench env rev n).2 ∨
      Event.dropTx ∈ (run_revision_bench env rev n).2) := by
  have hpe := script_phase_events rev.pre_script env.stmt 0 env.preDur
  rcases hpre : script_phase rev.pre_script env.stmt 0 env.preDur with ⟨pres, preEvs, k1⟩
  rw [hpre] at hpe
  dsimp only at hpe
  cases pres with
  | error e =>
    simp only [run_revision_bench, hb, hpre]
    constructor
    · intro hmem
      simp only [List.mem_cons, List.mem_append, List.mem_singleton] at hmem
      casesm* _ ∨ _
      all_goals
        first
          | exact Event.noConfusion (by assumption)
          | exact commit_not_mem_of_execs hpe (by assumption)
          | simp_all
    · right
      simp
  | ok preD =>
    have hie := run_iters_events env.stmt env.iterDur rev.query n k1
    rcases hit : run_iters env.stmt env.iterDur rev.query k1 n with ⟨itres, itEvs, k2⟩
    rw [hit] at hie
    dsimp only at hie
    cases itres with
    | error e =>
      simp only [run_revision_bench, hb, hpre, hit]
      constructor
      · intro hmem
        simp only [List.mem_cons, List.mem_append, List.mem_singleton] at hmem
        casesm* _ ∨ _
        all_goals
          first
            | exact Event.noConfusion (by assumption)
            | exact commit_not_mem_of_execs hpe (by assumption)
            | exact commit_not_mem_of_execs hie (by assumption)
            | simp_all
      · right
        simp
    | ok durs =>
      have hpo := script_phase_events rev.post_script env.stmt k2 env.postDur
      rcases hpost : script_phase rev.post_script env.stmt k2 env.postDur with ⟨posres, postEvs, k3⟩
      rw [hpost] at hpo
      dsimp only at hpo
      cases posres with
      | error e =>
        simp only [run_revision_bench, hb, hpre, hit, hpost]
        constructor
        · intro hmem
          simp only [List.mem_cons, List.mem_append, List.mem_singleton] at hmem
          casesm* _ ∨ _
          all_goals
            first
              | exact Event.noConfusion (by assumption)
              | exact commit_not_mem_of_execs hpe (by assumption)
              | exact commit_not_mem_of_execs hie (by assumption)
              | exact commit_not_mem_of_execs hpo (by assumption)
              | simp_all
        · right
          simp
      | ok postD =>
        cases hrb : env.rollbackRes with
        | some e =>
          simp only [run_revision_bench, hb, hpre, hit, hpost, hrb]
          constructor
          · intro hmem
            simp only [List.mem_cons, List.mem_append, List.mem_singleton] at hmem
            casesm* _ ∨ _
            all_goals
              first
                | exact Event.noConfusion (by assumption)
                | exact commit_not_mem_of_execs hpe (by assumption)
                | exact commit_not_mem_of_execs hie (by assumption)
                | exact commit_not_mem_of_execs hpo (by assumption)
                | simp_all
          · left
            simp
        | none =>
          simp only [run_revision_bench, hb, hpre, hit, hpost, hrb]
          constructor
          · intro hmem
            simp only [List.mem_cons, List.mem_append, List.mem_singleton] at hmem
            casesm* _ ∨ _
            all_goals
              first
                | exact Event.noConfusion (by assumption)
                | exact commit_not_mem_of_execs hpe (by assumption)
                | exact commit_not_mem_of_execs hie (by assumption)
                | exact commit_not_mem_of_execs hpo (by assumption)
                | simp_all
          · left
            simp

/-- C1 witness: a concrete all-success execution with one iteration. -/
theorem c1_rollback_only_witness :
    Event.commit ∉ (run_revision_bench envAllOk revPlain 1).2 ∧
    (Event.rollback ∈ (run_revision_bench envAllOk revPlain 1).2 ∨
      Event.dropTx ∈ (run_revision_bench envAllOk revPlain 1).2) :=
  c1_rollback_only envAllOk revPlain 1 rfl

/-- C4: with no pre-script and no post-script, a successful run over `n`
iterations returns the success struct holding exactly the `n` measured
per-iteration durations, in order, with `avg_query_duration` equal to
their sum divided by `n`, and the script-duration fields at their
default `0`. -/
theorem c4_success_durations (env : Env) (rev : QueryRevision) (n : Nat)
    (hb : env.beginRes = none) (hr : env.rollbackRes = none)
    (hpre : rev.pre_script = none) (hpost : rev.post_script = none)
    (hok : ∀ k, k < n → env.stmt k = none) (_hn : 1 ≤ n) :
    (run_revision_bench env rev n).1 =
      .ok { revision_name := rev.name,
            durations := (List.range n).map env.iterDur,
            avg_query_duration := ((List.range n).map env.iterDur).sum / (n : ℚ),
            pre_script_duration := 0, post_script_duration := 0 } ∧
    ((List.range n).map env.iterDur).length = n := by
  have hps : script_phase rev.pre_script env.stmt 0 env.preDur = (.ok 0, [], 0) := by
    simp [hpre, script_phase]
  have hit := run_iters_ok env.stmt env.iterDur rev.query n 0
    (fun j hj => by simpa using hok j hj)
  have hps2 : script_phase rev.post_script env.stmt (0 + n) env.postDur =
      (.ok 0, [], 0 + n) := by
    simp [hpost, script_phase]
  constructor
  · simp only [run_revision_bench, hb, hps, hit, hps2, hr]
    simp [List.map_congr_left, Nat.zero_add]
  · simp

/-- C4 witness: two iterations on the all-success oracle, durations 1
and 2, average 3/2. -/
theorem c4_success_durations_witness :
    (run_revision_bench envAllOk revPlain 2).1 =
      .ok { revision_name := revPlain.name,
            durations := (List.range 2).map envAllOk.iterDur,
            avg_query_duration := ((List.range 2).map envAllOk.iterDur).sum / (2 : ℚ),
            pre_script_duration := 0, post_script_duration := 0 } ∧
    ((List.range 2).map envAllOk.iterDur).length = 2 :=
  c4_success_durations envAllOk revPlain 2 rfl rfl rfl rfl
    (fun k hk => rfl) (by omega)

/-- C9: with no pre-script, once all `n` query iterations have
succeeded the executor performs the average-duration division with
divisor exactly the number of collected durations, i.e. `n`, with no
guard for the empty case — so at `n = 0` the division is performed with
divisor `0` (the `Duration::div_f64` call on a zero count), and for
`n ≥ 1` the divisor is nonzero. -/
theorem c9_div_by_count (env : Env) (rev : QueryRevision) (n : Nat)
    (hb : env.beginRes = none) (hpre : rev.pre_script = none)
    (hok : ∀ k, k < n → env.stmt k = none) :
    Event.divide n ∈ (run_revision_bench env rev n).2 := by
  have hps : script_phase rev.pre_script env.stmt 0 env.preDur = (.ok 0, [], 0) := by
    simp [hpre, script_phase]
  have hit := run_iters_ok env.stmt env.iterDur rev.query n 0
    (fun j hj => by simpa using hok j hj)
  rcases hpost : script_phase rev.post_script env.stmt (0 + n) env.postDur with ⟨posres, postEvs, k3⟩
  cases posres with
  | error e =>
    simp only [run_revision_bench, hb, hps, hit, hpost]
    simp
  | ok postD =>
    cases hrb : env.rollbackRes with
    | some e =>
      simp only [run_revision_bench, hb, hps, hit, hpost, hrb]
      simp
    | none =>
      simp only [run_revision_bench, hb, hps, hit, hpost, hrb]
      simp

/-- C9 witness: with the configured iteration count 0 the division is
performed with divisor 0. -/
theorem c9_div_by_count_witness :
    Event.divide 0 ∈ (run_revision_bench envAllOk revPlain 0).2 :=
  c9_div_by_count envAllOk revPlain 0 rfl rfl (fun k hk => absurd hk (Nat.not_lt_zero k))

/-- C5: two parts.  First, with no pre-script, if the query fails on
iteration `k` of `n` (the first `k` executions succeed, execution `k`
fails with driver error `e`), the loop stops immediately — exactly
`k + 1` query submissions occur, so iterations `k+1 .. n-1` never run —
and the caller receives only the phase tag, the revision name and the
error: the durations collected before the failure, and any average, are
absent from the returned value.  Second, a post-script failure likewise
returns only the phase tag, the revision name and the error, discarding
the collected iteration durations and the computed average. -/
theorem c5_failure_discards :
    (∀ (env : Env) (rev : QueryRevision) (n k : Nat) (e : String),
      env.beginRes = none → rev.pre_script = none →
      (∀ j, j < k → env.stmt j = none) → env.stmt k = some e → k < n →
      (run_revision_bench env rev n).1 = .error (.queryPhase rev.name e) ∧
      List.count (Event.exec rev.query) (run_revision_bench env rev n).2 = k + 1) ∧
    (∀ (env : Env) (rev : QueryRevision) (n : Nat) (e : String),
      env.beginRes = none → rev.pre_script = none →
      (∀ j, j < n → env.stmt j = none) →
      (script_phase rev.post_script env.stmt (0 + n) env.postDur).1 = .error e →
      (run_revision_bench env rev n).1 = .error (.postScript rev.name e)) := by
  constructor
  · intro env rev n k e hb hpre hok hf hk
    have hps : script_phase rev.pre_script env.stmt 0 env.preDur = (.ok 0, [], 0) := by
      simp [hpre, script_phase]
    have hit := run_iters_fail env.stmt env.iterDur rev.query k n 0 e hk
      (fun i hi => by simpa using hok i hi) (by simpa using hf)
    constructor
    · simp only [run_revision_bench, hb, hps, hit]
    · simp only [run_revision_bench, hb, hps, hit]
      simp [List.count_cons, List.count_append, List.count_replicate]
  · intro env rev n e hb hpre hok hpost
    have hps : script_phase rev.pre_script env.stmt 0 env.preDur = (.ok 0, [], 0) := by
      simp [hpre, script_phase]
    have hit := run_iters_ok env.stmt env.iterDur rev.query n 0
      (fun j hj => by simpa using hok j hj)
    rcases hps2 : script_phase rev.post_script env.stmt (0 + n) env.postDur with ⟨posres, postEvs, k3⟩
    rw [hps2] at hpost
    dsimp only at hpost
    subst hpost
    simp only [run_revision_bench, hb, hps, hit, hps2]

/-- C5 witness: a query failing on iteration 1 of 3 (so two query
submissions happen), and a failing post-script after one successful
iteration. -/
theorem c5_failure_discards_witness :
    ((run_revision_bench envSecondFail revPlain 3).1 =
        .error (.queryPhase ("r") ("boom")) ∧
      List.count (Event.exec revPlain.query) (run_revision_bench envSecondFail revPlain 3).2 = 2) ∧
    (run_revision_bench envSecondFail revPost 1).1 =
        .error (.postScript ("r2") ("boom")) := by
  constructor
  · exact c5_failure_discards.1 envSecondFail revPlain 3 1 ("boom") rfl rfl
      (fun j hj => by
        have : j = 0 := by omega
        subst this
        rfl)
      rfl (by omega)
  · exact c5_failure_discards.2 envSecondFail revPost 1 ("boom") rfl rfl
      (fun j hj => by
        have : j = 0 := by omega
        subst this
        rfl)
      rfl

/-- C2 (failing evaluation): a revision whose pre-script statement the
driver rejects makes `run_revision_bench` return on the error channel
(the `?`-propagated, context-wrapped error) — no tagged
`PreScriptFailure` value is ever constructed, contradicting the claim
that the executor never raises. -/
theorem c2_error_propagated :
    (run_revision_bench envStmtFail revPre 1).1 =
      .error (.preScript ("r1") ("boom")) := rfl

/-- C3 (failing evaluation): in a benchmark with a failing and a
succeeding revision, `run_query_bench` returns the context-wrapped
error of the failing revision — abandoning the sibling outcome even
though the sibling task succeeds on its own — and `run_bench`
propagates that error, aborting the whole run, contradicting the claim
that per-revision failures never abort siblings. -/
theorem c3_failure_aborts_siblings :
    run_query_bench envsTwo 1 benchTwo =
      .error (.ctx ("b") (.queryPhase ("bad") ("boom"))) ∧
    (∃ r : QueryRevisionResult, (run_revision_bench (envsTwo 1) revSibling 1).1 = .ok r ∧
      r.revision_name = ("ok")) ∧
    run_bench argsOne [("f.toml")] parseTwo (fun _ => envsTwo) =
      .error (.benchFail (.ctx ("b") (.queryPhase ("bad") ("boom")))) :=
  ⟨rfl, ⟨_, rfl, rfl⟩, rfl⟩

/-- C6: the splitter returns the pieces obtained by splitting on the
`;` character with the delimiter retained in each piece (the spec-side
`splitOnSemi`/`reattachSemi` description), each piece trimmed of
leading and trailing whitespace; and the three example splits of the
claim hold. -/
theorem c6_splitter_spec :
    (∀ s : String, extract_multiline_queries s =
      (reattachSemi (splitOnSemi s.data)).map (fun p => (rustTrim p).asString)) ∧
    extract_multiline_queries ("A; B;") = [("A;"), ("B;")] ∧
    extract_multiline_queries ("A") = [("A")] ∧
    extract_multiline_queries ("  A ; B ") = [("A ;"), ("B")] := by
  refine ⟨?_, by decide, by decide, by decide⟩
  intro s
  unfold extract_multiline_queries
  rw [splitInclusive_eq_reattach]

/-- C7 (counterexample): the claim says script execution never submits
a trimmed-empty statement, but on the script consisting of a statement
followed by a terminal `;` and a space, `execute_script` submits the
trimmed-empty trailing fragment to the database. -/
theorem c7_counterexample :
    Event.exec ("") ∈ (execute_script ("A; ") (fun _ => none) 0 0).2.1 := by
  decide

/-- C7 (amended): script execution submits exactly the trimmed
statements produced by the splitter, sequentially and in order —
including trimmed-empty fragments, which are not filtered out. -/
theorem c7_amended_executes_all (s : String) (o : Nat → Option String) (k : Nat) (d : ℚ)
    (hok : ∀ j, o j = none) :
    (execute_script s o k d).2.1 = (extract_multiline_queries s).map Event.exec := by
  unfold execute_script
  rw [exec_stmts_all_ok o hok (extract_multiline_queries s) k]

/-- C7 witness: the amended statement evaluated on a concrete script. -/
theorem c7_amended_witness :
    (execute_script ("A; B;") (fun _ => none) 0 0).2.1 =
      (extract_multiline_queries ("A; B;")).map Event.exec :=
  c7_amended_executes_all ("A; B;") (fun _ => none) 0 0 (fun _ => rfl)

/-- C8 (counterexample): at 365 days worth of milliseconds the
formatter renders both the year and the full (unreduced) day count,
while the strict successive division/remainder decomposition of the
claim renders only the year — the day component of the source is the
plain quotient, not reduced modulo 365. -/
theorem c8_counterexample :
    format_duration_pretty 31536000000 = ("1y 365d") ∧
    format_duration_spec 31536000000 = ("1y") ∧
    format_duration_pretty 31536000000 ≠ format_duration_spec 31536000000 :=
  ⟨by decide, by decide, by decide⟩

/-- C8 (amended): zero renders as exactly `0ms`; 1,234,567 ms renders
as `20m 34s 567ms`; and in general the formatter renders the
components obtained by successive integer division with remainders for
milliseconds, seconds, minutes and hours, but with the day component
the full quotient (no reduction modulo 365) and years that quotient
divided by 365. -/
theorem c8_amended_formatter :
    format_duration_pretty 0 = ("0ms") ∧
    format_duration_pretty 1234567 = ("20m 34s 567ms") ∧
    ∀ t : Nat, format_duration_pretty t =
      render_parts (t / 1000 / 60 / 60 / 24 / 365) (t / 1000 / 60 / 60 / 24)
        (t / 1000 / 60 / 60 % 24) (t / 1000 / 60 % 60) (t / 1000 % 60) (t % 1000) :=
  ⟨by decide, by decide, fun t => rfl⟩

/-- C10: when the glob walk matches no files, `run_bench` returns the
no-files error naming the configured pattern and directory, for every
parse oracle and every revision environment — so before any benchmark
or revision executes — and never an (empty) success list. -/
theorem c10_no_files_error (args : Args) (parse : String → Except String QueryBenches)
    (envFor : Nat → Nat → Env) :
    run_bench args [] parse envFor = .error (.noFilesFound args.pattern args.dir) ∧
    ∀ results, run_bench args [] parse envFor ≠ .ok results :=
  ⟨rfl, fun _ h => Except.noConfusion h⟩

/-- C10 witness: the no-files error on the concrete argument fixture. -/
theorem c10_no_files_error_witness :
    run_bench argsOne [] parseTwo (fun _ => envsTwo) =
      .error (.noFilesFound ("*.toml") ("./")) ∧
    ∀ results, run_bench argsOne [] parseTwo (fun _ => envsTwo) ≠ .ok results :=
  c10_no_files_error argsOne parseTwo (fun _ => envsTwo)
